import Mathlib

/-!
Verification development for the log-statistics pipeline
(`logs/app/log_processor.py`, `logs/app/api.py`, `logs/app/models.py`).

The Python code is shallowly embedded: datetimes become a `DateTime`
structure with proleptic-Gregorian ordinal arithmetic (mirroring
`datetime.toordinal`), float arithmetic is idealised as exact rational
arithmetic over `ℚ`, and fallible parsing returns `Option`.
-/

/- ### Datetime model (mirrors Python `datetime` with UTC tzinfo) -/

/-- A calendar datetime, as produced by `datetime.strptime(..., "%Y-%m-%d %H:%M:%S")`. -/
structure DateTime where
  year : ℕ
  month : ℕ
  day : ℕ
  hour : ℕ
  minute : ℕ
  second : ℕ
deriving DecidableEq, Repr

/-- Gregorian leap-year rule, as in Python `calendar.isleap`. -/
def isLeap (y : ℕ) : Bool :=
  (y % 4 == 0 && y % 100 != 0) || (y % 400 == 0)

/-- Days in month `m` of a (non-)leap year, `_days_in_month` in CPython. -/
def monthDays (leap : Bool) (m : ℕ) : ℕ :=
  match m with
  | 1 => 31
  | 2 => if leap then 29 else 28
  | 3 => 31
  | 4 => 30
  | 5 => 31
  | 6 => 30
  | 7 => 31
  | 8 => 31
  | 9 => 30
  | 10 => 31
  | 11 => 30
  | 12 => 31
  | _ => 0

/-- Days in the year strictly before month `m`, `_days_before_month` in CPython. -/
def daysBeforeMonth (leap : Bool) (m : ℕ) : ℕ :=
  ((List.range' 1 (m - 1)).map (monthDays leap)).sum

/-- Proleptic Gregorian ordinal of a date, as Python `date.toordinal()`
(0001-01-01 has ordinal 1). -/
def toOrdinal (dt : DateTime) : ℤ :=
  365 * ((dt.year : ℤ) - 1) + ((dt.year : ℤ) - 1) / 4 - ((dt.year : ℤ) - 1) / 100
    + ((dt.year : ℤ) - 1) / 400 + (daysBeforeMonth (isLeap dt.year) dt.month : ℤ)
    + (dt.day : ℤ)

/-- Seconds since the proleptic-Gregorian epoch; datetime subtraction in Python is
exactly the difference of these counts. -/
def toSeconds (dt : DateTime) : ℤ :=
  toOrdinal dt * 86400 + (dt.hour : ℤ) * 3600 + (dt.minute : ℤ) * 60 + (dt.second : ℤ)

/-- `(a - b).total_seconds()` for Python datetimes: an exact integral number of
seconds here, returned as a rational since Python returns a float. -/
def tsub (a b : DateTime) : ℚ :=
  ((toSeconds a - toSeconds b : ℤ) : ℚ)

/-- Placeholder datetime used where Python keeps an unused/`None`-guarded value. -/
def dtEpoch : DateTime := ⟨1970, 1, 1, 0, 0, 0⟩

/- ### LogEntry (`log_processor.LogEntry`) -/

/-- One parsed log line, mirroring the `LogEntry` dataclass.  Strings are lists of
characters; `duration` is the exact rational value of the parsed float literal. -/
structure LogEntry where
  timestamp : DateTime
  customer_id : List Char
  request_path : List Char
  status_code : ℤ
  duration : ℚ
deriving DecidableEq, Repr

/- ### Uptime estimator (`log_processor.calculate_uptime_percentage`) -/

/-- The `for entry in entries` loop of `calculate_uptime_percentage`: state is the
accumulated `downtime` and the optional `down_start`.  An entry is erroring iff
`500 <= status_code < 600`; the first branch starts a down period when none is
open, the second closes an open one on a non-erroring entry. -/
def uptimeLoop (downtime : ℚ) (ds : Option DateTime) : List LogEntry → ℚ × Option DateTime
  | [] => (downtime, ds)
  | e :: es =>
    match ds with
    | none =>
      if 500 ≤ e.status_code ∧ e.status_code < 600 then
        uptimeLoop downtime (some e.timestamp) es
      else
        uptimeLoop downtime none es
    | some d =>
      if 500 ≤ e.status_code ∧ e.status_code < 600 then
        uptimeLoop downtime (some d) es
      else
        uptimeLoop (downtime + tsub e.timestamp d) none es

/-- Embedding of `calculate_uptime_percentage`: returns 100.0 on an empty list,
otherwise runs the downtime loop, closes a still-open down period against the
last entry's timestamp, and clamps `((86400 - downtime) / 86400) * 100` to
`[0, 100]` (Python's `max(0.0, min(100.0, ...))`). -/
def calculate_uptime_percentage (entries : List LogEntry) : ℚ :=
  match entries with
  | [] => 100
  | e :: rest =>
    let r := uptimeLoop 0 none (e :: rest)
    let downtime :=
      match r.2 with
      | none => r.1
      | some d => r.1 + tsub (List.getLastD rest e).timestamp d
    max 0 (min 100 ((86400 - downtime) / 86400 * 100))

/- ### Spec-side uptime state machine (for the refinement claim C1 only) -/

/-- Modelled from the spec's words (§4.3): one transition of the state machine
with an explicit boolean `down` flag and a `down_start` timestamp — enter down on
an erroring event, leave down on a non-erroring event adding
`event.timestamp - down_start` to downtime. -/
def specStep (st : Bool × DateTime × ℚ) (e : LogEntry) : Bool × DateTime × ℚ :=
  if st.1 = false ∧ (500 ≤ e.status_code ∧ e.status_code < 600) then
    (true, e.timestamp, st.2.2)
  else if st.1 = true ∧ ¬(500 ≤ e.status_code ∧ e.status_code < 600) then
    (false, st.2.1, st.2.2 + tsub e.timestamp st.2.1)
  else
    st

/-- Modelled from the spec's words (§4.3): run the state machine over the
events, add `last_event.timestamp - down_start` if still down at the end, and
return `clamp(((86400 - downtime) / 86400) * 100, 0, 100)`. -/
def specUptime (entries : List LogEntry) : ℚ :=
  match entries with
  | [] => 100
  | e :: rest =>
    let fin := (e :: rest).foldl specStep (false, dtEpoch, 0)
    let downtime :=
      if fin.1 then fin.2.2 + tsub (List.getLastD rest e).timestamp fin.2.1 else fin.2.2
    max 0 (min 100 ((86400 - downtime) / 86400 * 100))

/-- Modelled from the spec's words (§4.2, close semantics): sorting the bucket's
events ascending by event timestamp.  The source never performs this sort. -/
def sortByTimestamp (entries : List LogEntry) : List LogEntry :=
  List.insertionSort (fun a b => toSeconds a.timestamp ≤ toSeconds b.timestamp) entries

/- ### Aggregator (`DailyStats` latency properties and `format_stats`) -/

/-- `DailyStats.avg_latency`: `statistics.mean` of the recorded latencies, `0.0`
when none are recorded (exact rational arithmetic). -/
def avg_latency (l : List ℚ) : ℚ :=
  if l = [] then 0 else l.sum / l.length

/-- `DailyStats.median_latency`: `statistics.median` — sort, take the middle
element for odd length and the average of the two middle elements for even
length; `0.0` when no latencies are recorded. -/
def median_latency (l : List ℚ) : ℚ :=
  if l = [] then 0
  else
    let s := List.insertionSort (· ≤ ·) l
    let n := s.length
    if n % 2 = 1 then s.getD (n / 2) 0
    else (s.getD (n / 2 - 1) 0 + s.getD (n / 2) 0) / 2

/-- `DailyStats.p99_latency`: `np.percentile(l, 99)` with the default linear
interpolation — virtual index `i = (n - 1) * 99 / 100` into the sorted data,
result `s[floor i] + (i - floor i) * (s[ceil i] - s[floor i])`; `0.0` when no
latencies are recorded. -/
def p99_latency (l : List ℚ) : ℚ :=
  if l = [] then 0
  else
    let s := List.insertionSort (· ≤ ·) l
    let i : ℚ := ((s.length - 1 : ℕ) : ℚ) * 99 / 100
    s.getD (⌊i⌋).toNat 0 + (i - ((⌊i⌋).toNat : ℚ)) * (s.getD (⌈i⌉).toNat 0 - s.getD (⌊i⌋).toNat 0)

/-- Modelled from the spec's words (§4.4): the arithmetic mean of the duration
multiset (`ℚ` division by zero is zero, matching the `0.0` empty default). -/
def specMean (l : List ℚ) : ℚ :=
  l.sum / l.length

/-- Modelled from the spec's words (§4.4): the middle value of the sorted
durations — index `(n - 1) / 2` when `n` is odd — and the average of the two
middle values on even cardinality. -/
def specMedian (l : List ℚ) : ℚ :=
  if l = [] then 0
  else
    let s := List.insertionSort (· ≤ ·) l
    let n := s.length
    if n % 2 = 1 then s.getD ((n - 1) / 2) 0
    else (s.getD (n / 2 - 1) 0 + s.getD (n / 2) 0) / 2

/-- Modelled from the spec's words (§4.4): the 99th percentile by linear
interpolation between the closest ranks `floor h` and `ceil h` of the
fractional rank `h = 0.99 * (n - 1)`, weighting the two by `1 - frac` and
`frac` where `frac = h - floor h`. -/
def specP99 (l : List ℚ) : ℚ :=
  if l = [] then 0
  else
    let s := List.insertionSort (· ≤ ·) l
    let h : ℚ := (99 / 100 : ℚ) * ((s.length - 1 : ℕ) : ℚ)
    (1 - (h - ((⌊h⌋).toNat : ℚ))) * s.getD (⌊h⌋).toNat 0
      + (h - ((⌊h⌋).toNat : ℚ)) * s.getD (⌈h⌉).toNat 0

/-- The success/failure counting loop of `format_stats`: increment
`successful_requests` when `200 <= status_code < 300`, `failed_requests`
otherwise. -/
def countLoop (s f : ℕ) : List LogEntry → ℕ × ℕ
  | [] => (s, f)
  | e :: es =>
    if 200 ≤ e.status_code ∧ e.status_code < 300 then countLoop (s + 1) f es
    else countLoop s (f + 1) es

/-- The classification test of `format_stats` as a boolean predicate:
`200 <= status_code < 300`. -/
def is2xx (e : LogEntry) : Bool :=
  decide (200 ≤ e.status_code ∧ e.status_code < 300)

/-- The record emitted by `format_stats` for one closed bucket (the Python dict;
the `date` field is kept as the datetime that the code formats with
`strftime("%Y-%m-%d")`). -/
structure StatsRecord where
  customer_id : List Char
  date : DateTime
  successful_requests : ℕ
  failed_requests : ℕ
  uptime_percentage : ℚ
  avg_latency : ℚ
  median_latency : ℚ
  p99_latency : ℚ
deriving DecidableEq, Repr

/-- Embedding of `format_stats` applied to a closed bucket's collected entries:
customer id and date from the first entry (the code's empty-bucket defaults are
`""` and `datetime.now()`, modelled by `[]` and `dtEpoch`; windows never emit
empty buckets), uptime from `calculate_uptime_percentage` on the entries as
given, counts from the classification loop, and latency statistics over the
appended durations. -/
def format_stats (entries : List LogEntry) : StatsRecord :=
  let sf := countLoop 0 0 entries
  let lats := entries.map (fun e => e.duration)
  { customer_id := match entries with | [] => [] | e :: _ => e.customer_id
    date := match entries with | [] => dtEpoch | e :: _ => e.timestamp
    successful_requests := sf.1
    failed_requests := sf.2
    uptime_percentage := calculate_uptime_percentage entries
    avg_latency := avg_latency lats
    median_latency := median_latency lats
    p99_latency := p99_latency lats }

/- ### Storage rows and sink upsert (`models.CustomerDailyStats`, `log_processor.save_to_database`) -/

/-- One stored row of the `customerdailystats` table (`models.CustomerDailyStats`).
The calendar date is modelled by its ordinal number so that the read API's
`date >= from` comparison is integer comparison.  The same shape models the
`stats_dict` payload handed to `save_to_database`, whose `date` string the code
parses back with `strptime("%Y-%m-%d")`. -/
structure CustomerDailyStats where
  customer_id : List Char
  date : ℤ
  successful_requests : ℤ
  failed_requests : ℤ
  uptime_percentage : ℚ
  avg_latency : ℚ
  median_latency : ℚ
  p99_latency : ℚ
deriving DecidableEq, Repr

/-- Embedding of `save_to_database` acting on the table contents: look for the
first existing row with the same `(customer_id, date)`; if found, overwrite
every measure field (every dict key except `customer_id` and `date`) on that
row in place, otherwise append the freshly built row. -/
def save_to_database : List CustomerDailyStats → CustomerDailyStats → List CustomerDailyStats
  | [], d => [d]
  | r :: rs, d =>
    if r.customer_id = d.customer_id ∧ r.date = d.date then
      { d with customer_id := r.customer_id, date := r.date } :: rs
    else
      r :: save_to_database rs d

/- ### Read API (`api.get_customer_stats`) -/

/-- Outcome of `GET /customers/{customer_id}/stats`: either HTTP 404 or the
list of matching rows. -/
inductive ApiResult where
  | notFound : ApiResult
  | ok : List CustomerDailyStats → ApiResult
deriving DecidableEq, Repr

/-- Embedding of `get_customer_stats`: select the rows with the requested
customer id, further restrict to `date >= from` when a `from` parameter is
supplied (a `date` value is always truthy in Python), and raise 404 when the
resulting list is empty. -/
def get_customer_stats (db : List CustomerDailyStats) (cid : List Char)
    (fromDate : Option ℤ) : ApiResult :=
  let q := db.filter (fun r => r.customer_id = cid)
  let results :=
    match fromDate with
    | some f => q.filter (fun r => f ≤ r.date)
    | none => q
  if results = [] then ApiResult.notFound else ApiResult.ok results

/- ### Parser (`log_processor.parse_log_line`) -/

/-- Accumulator version of Python `str.split()` (split on runs of whitespace,
dropping empty pieces); the preceding `str.strip()` in the source is absorbed,
since `split()` already ignores leading and trailing whitespace. -/
def pySplitAux : List Char → List Char → List (List Char)
  | [], acc => if acc = [] then [] else [acc.reverse]
  | ch :: cs, acc =>
    if ch.isWhitespace then
      if acc = [] then pySplitAux cs [] else acc.reverse :: pySplitAux cs []
    else
      pySplitAux cs (ch :: acc)

/-- Python `line.strip().split()`. -/
def pySplit (line : List Char) : List (List Char) :=
  pySplitAux line []

/-- Numeric value of an ASCII digit. -/
def digitVal (ch : Char) : ℕ :=
  ch.toNat - 48

/-- Continue a digit run after its first digit: further digits extend the value,
an underscore is legal only when squeezed between two digits (PEP 515), and any
other character ends the run.  Returns the value, the digit count, and the rest. -/
def digitRunRest (acc n : ℕ) : List Char → Option (ℕ × ℕ × List Char)
  | '_' :: ch :: rest =>
    if ch.isDigit then digitRunRest (acc * 10 + digitVal ch) (n + 1) rest else none
  | ['_'] => none
  | ch :: rest =>
    if ch.isDigit then digitRunRest (acc * 10 + digitVal ch) (n + 1) rest
    else some (acc, n, ch :: rest)
  | [] => some (acc, n, [])

/-- A possibly-empty digit run with PEP 515 underscores: an empty run is returned
(with count 0) when the input does not start with a digit. -/
def digitRun (l : List Char) : Option (ℕ × ℕ × List Char) :=
  match l with
  | ch :: rest => if ch.isDigit then digitRunRest (digitVal ch) 1 rest else some (0, 0, l)
  | [] => some (0, 0, [])

/-- The unsigned part of `pyInt`. -/
def pyIntDigits (sign : ℤ) (l : List Char) : Option ℤ :=
  match digitRun l with
  | some (v, n, rest) => if n = 0 ∨ rest ≠ [] then none else some (sign * v)
  | none => none

/-- Python `int(s)` on a whitespace-free token (the tokens produced by `split()`
contain no whitespace, so the stripping `int` performs is vacuous): an optional
single sign followed by a non-empty digit run reaching the end of the token. -/
def pyInt (l : List Char) : Option ℤ :=
  match l with
  | '+' :: rest => pyIntDigits 1 rest
  | '-' :: rest => pyIntDigits (-1) rest
  | rest => pyIntDigits 1 rest

/-- The digit part of a float exponent: the signed exponent value, demanding a
non-empty digit run reaching the end of the token. -/
def pyFloatExpDigits (sign : ℤ) (l : List Char) : Option ℤ :=
  match digitRun l with
  | some (e, n, rest) =>
    if n = 0 ∨ rest ≠ [] then none else some (sign * e)
  | none => none

/-- The optional exponent suffix of a Python float literal: nothing (exponent
0), or `e`/`E`, an optional sign, and a non-empty digit run reaching the end of
the token. -/
def pyFloatExp : List Char → Option ℤ
  | [] => some 0
  | ch :: rest =>
    if ch = 'e' ∨ ch = 'E' then
      match rest with
      | '+' :: r2 => pyFloatExpDigits 1 r2
      | '-' :: r2 => pyFloatExpDigits (-1) r2
      | r2 => pyFloatExpDigits 1 r2
    else none

/-- The unsigned body of a Python float literal, `digits [. [digits]] [exp]` or
`. digits [exp]`, decomposed as (decimal mantissa, number of fractional digits,
exponent): the encoded value is `mantissa / 10 ^ fracDigits * 10 ^ exponent`.
Non-finite forms (`inf`, `infinity`, `nan`) have no rational value and fall
outside this exact model, so they are not produced. -/
def pyFloatBody (l : List Char) : Option (ℤ × ℕ × ℤ) :=
  match l with
  | '.' :: rest =>
    match digitRun rest with
    | some (fp, m, r2) =>
      if m = 0 then none else (pyFloatExp r2).map fun ex => ((fp : ℤ), m, ex)
    | none => none
  | _ =>
    match digitRun l with
    | some (ip, n, r) =>
      if n = 0 then none
      else
        match r with
        | '.' :: r2 =>
          match digitRun r2 with
          | some (fp, m, r3) =>
            (pyFloatExp r3).map fun ex => ((ip : ℤ) * 10 ^ m + (fp : ℤ), m, ex)
          | none => none
        | _ => (pyFloatExp r).map fun ex => ((ip : ℤ), 0, ex)
    | none => none

/-- A Python float literal decomposed into integers: an optional single sign
applied to the mantissa of the body. -/
def pyFloatRaw (l : List Char) : Option (ℤ × ℕ × ℤ) :=
  match l with
  | '+' :: rest => pyFloatBody rest
  | '-' :: rest => (pyFloatBody rest).map (fun x => (-x.1, x.2.1, x.2.2))
  | rest => pyFloatBody rest

/-- Python `float(s)` on a whitespace-free token: the exact rational value of
the literal. -/
def pyFloat (l : List Char) : Option ℚ :=
  (pyFloatRaw l).map fun x => (x.1 : ℚ) / 10 ^ x.2.1 * 10 ^ x.2.2

/-- One numeric `strptime` field: the maximal leading digit run must be non-empty
and at most `cap` digits long (regex backtracking over `\d{1,cap}` followed by a
non-digit literal accepts exactly these runs). -/
def tsField (cap : ℕ) (l : List Char) : Option (ℕ × List Char) :=
  let ds := l.takeWhile (fun ch => ch.isDigit)
  if ds = [] ∨ cap < ds.length then none
  else some (ds.foldl (fun acc ch => acc * 10 + digitVal ch) 0, l.dropWhile (fun ch => ch.isDigit))

/-- The `%Y` field of `strptime`: CPython's pattern is exactly four digits. -/
def tsYear (l : List Char) : Option (ℕ × List Char) :=
  let ds := l.takeWhile (fun ch => ch.isDigit)
  if ds.length = 4 then
    some (ds.foldl (fun acc ch => acc * 10 + digitVal ch) 0, l.dropWhile (fun ch => ch.isDigit))
  else none

/-- A literal separator character in a `strptime` format. -/
def tsLit (c : Char) : List Char → Option (List Char)
  | ch :: rest => if ch = c then some rest else none
  | [] => none

/-- Whitespace in a `strptime` format matches one or more whitespace characters. -/
def tsSpace : List Char → Option (List Char)
  | ch :: rest => if ch.isWhitespace then some (rest.dropWhile (fun c => c.isWhitespace)) else none
  | [] => none

/-- The `datetime` constructor's validation: year in `[1, 9999]`, month in
`[1, 12]`, day in `[1, days-in-month]`, hour `< 24`, minute and second `< 60`
(the per-field regex ranges of `_strptime` are all subsumed by this check, and
every value they reject is also rejected here). -/
def mkDatetime (y mo d h mi s : ℕ) : Option DateTime :=
  if 1 ≤ y ∧ y ≤ 9999 ∧ 1 ≤ mo ∧ mo ≤ 12 ∧ 1 ≤ d ∧ d ≤ monthDays (isLeap y) mo
      ∧ h ≤ 23 ∧ mi ≤ 59 ∧ s ≤ 59 then
    some ⟨y, mo, d, h, mi, s⟩
  else none

/-- `datetime.strptime(text, "%Y-%m-%d %H:%M:%S")`: four year digits, one or two
digits for the other fields, the literal separators, no unconverted trailing
data, then constructor validation. -/
def strptimeYmdHms (l : List Char) : Option DateTime := do
  let (y, r1) ← tsYear l
  let r2 ← tsLit '-' r1
  let (mo, r3) ← tsField 2 r2
  let r4 ← tsLit '-' r3
  let (d, r5) ← tsField 2 r4
  let r6 ← tsSpace r5
  let (h, r7) ← tsField 2 r6
  let r8 ← tsLit ':' r7
  let (mi, r9) ← tsField 2 r8
  let r10 ← tsLit ':' r9
  let (s, r11) ← tsField 2 r10
  if r11 = [] then mkDatetime y mo d h mi s else none

/-- Embedding of `parse_log_line`: split the line, then evaluate in the source's
order — the timestamp from fields 0 and 1, the customer id, the path, the
integer status from field 4 and the float duration from field 5; any missing
field (IndexError) or conversion failure (ValueError) yields `none`. -/
def parse_log_line (line : List Char) : Option LogEntry :=
  let parts := pySplit line
  (parts[0]?).bind fun p0 =>
  (parts[1]?).bind fun p1 =>
  (strptimeYmdHms (p0 ++ ' ' :: p1)).bind fun ts =>
  (parts[2]?).bind fun cid =>
  (parts[3]?).bind fun path =>
  (parts[4]?).bind fun p4 =>
  (pyInt p4).bind fun sc =>
  (parts[5]?).bind fun p5 =>
  (pyFloat p5).map fun dur =>
  { timestamp := ts, customer_id := cid, request_path := path,
    status_code := sc, duration := dur }

/- ### Concrete inputs used by the claim theorems -/

/-- Scenario B events: `200` at T, `500` at T+1s, `503` at T+2s, `200` at T+3s,
with T = 2024-10-26 00:00:00, in timestamp order. -/
def scenarioB : List LogEntry :=
  [ ⟨⟨2024, 10, 26, 0, 0, 0⟩, ['c', 'u', 's', 't', '_', '2'], ['/', 'a'], 200, 1⟩
  , ⟨⟨2024, 10, 26, 0, 0, 1⟩, ['c', 'u', 's', 't', '_', '2'], ['/', 'a'], 500, 1⟩
  , ⟨⟨2024, 10, 26, 0, 0, 2⟩, ['c', 'u', 's', 't', '_', '2'], ['/', 'a'], 503, 1⟩
  , ⟨⟨2024, 10, 26, 0, 0, 3⟩, ['c', 'u', 's', 't', '_', '2'], ['/', 'a'], 200, 1⟩ ]

/-- A success event whose log line arrived first although its timestamp
(00:10:00) is the later one. -/
def entryLate : LogEntry :=
  ⟨⟨2024, 10, 26, 0, 10, 0⟩, ['c', 'u', 's', 't', '_', '2'], ['/', 'a'], 200, 1⟩

/-- A 500 event with the earlier timestamp (00:00:00) that arrived second. -/
def entryDown : LogEntry :=
  ⟨⟨2024, 10, 26, 0, 0, 0⟩, ['c', 'u', 's', 't', '_', '2'], ['/', 'a'], 500, 1⟩

/-- A single success event used to instantiate universally quantified theorems. -/
def entryOk : LogEntry :=
  ⟨⟨2024, 10, 26, 3, 5, 0⟩, ['c', 'u', 's', 't', '_', '1'], ['/', 'a'], 200, 1 / 2⟩

/-- A stored row for customer `c` with date ordinal 0. -/
def rowC : CustomerDailyStats := ⟨['c'], 0, 1, 0, 100, 1, 1, 1⟩

/-- An upsert payload for customer `d` with date ordinal 5. -/
def payloadD : CustomerDailyStats := ⟨['d'], 5, 2, 1, 100, 3 / 4, 3 / 4, 199 / 200⟩

/-- A log line with seven whitespace-separated fields whose first six are
well-formed. -/
def extraFieldLine : List Char :=
  "2024-10-26 03:05:00 cust_1 /api/v1/resource2 200 0.5 extra".toList

/- ### Helper lemmas -/

/-- The counting loop adds the number of 2xx entries to `s` and the number of
non-2xx entries to `f`. -/
theorem countLoop_eq (es : List LogEntry) : ∀ (s f : ℕ),
    countLoop s f es = (s + es.countP is2xx, f + es.countP (fun e => !is2xx e)) := by
  induction es with
  | nil => intro s f; simp [countLoop]
  | cons e es ih =>
    intro s f
    by_cases h : 200 ≤ e.status_code ∧ e.status_code < 300
    · have h2 : is2xx e = true := by simp [is2xx, h]
      simp only [countLoop, if_pos h, ih, List.countP_cons, h2, Bool.not_true,
        if_true, Prod.mk.injEq]
      constructor <;> first | omega | (simp <;> omega)
    · have h2 : is2xx e = false := by simp [is2xx, h]
      simp only [countLoop, if_neg h, ih, List.countP_cons, h2, Bool.not_false,
        Prod.mk.injEq]
      constructor <;> first | omega | (simp <;> omega)

/-- Counting a predicate and its negation partitions the list. -/
theorem countP_add_countP_not (p : LogEntry → Bool) (l : List LogEntry) :
    l.countP p + l.countP (fun e => !p e) = l.length := by
  induction l with
  | nil => simp
  | cons e es ih =>
    by_cases h : p e <;> simp [List.countP_cons, h, ← ih] <;> omega

/-- With no erroring entry the downtime loop never opens a down period. -/
theorem uptimeLoop_no_error (es : List LogEntry) :
    ∀ dt : ℚ, (∀ e ∈ es, ¬(500 ≤ e.status_code ∧ e.status_code < 600)) →
      uptimeLoop dt none es = (dt, none) := by
  induction es with
  | nil => intro dt _; rfl
  | cons e es ih =>
    intro dt h
    have he := h e (by simp)
    simp only [uptimeLoop, if_neg he]
    exact ih dt (fun x hx => h x (by simp [hx]))

/- ### Claim theorems -/

/-- C10: with no recorded latencies every latency statistic of a DailyStats is
defined and equal to 0.0 (hence non-negative): `avg_latency`, `median_latency`
and `p99_latency` all return 0 on the empty duration multiset, and these are
the values `format_stats` emits for a bucket carrying no durations. -/
theorem latency_stats_empty_default :
    avg_latency [] = 0 ∧ median_latency [] = 0 ∧ p99_latency [] = 0 ∧
      (format_stats []).avg_latency = 0 ∧ (format_stats []).median_latency = 0 ∧
      (format_stats []).p99_latency = 0 ∧ (0 : ℚ) ≤ 0 := by
  refine ⟨?_, ?_, ?_, ?_, ?_, ?_, le_refl 0⟩ <;>
    simp [avg_latency, median_latency, p99_latency, format_stats]

/-- Evaluation of the 99th percentile on a sorted three-element list: the
virtual index is `1.98`, so the result interpolates between the second and
third values with fraction `49/50`. -/
theorem p99_latency_sorted_three (a b c : ℚ)
    (hs : List.insertionSort (· ≤ ·) [a, b, c] = [a, b, c]) :
    p99_latency [a, b, c] = b + 49 / 50 * (c - b) := by
  rw [p99_latency, if_neg (by simp), hs]
  dsimp only
  have hi : ((([a, b, c].length - 1 : ℕ) : ℚ) * 99 / 100) = 99 / 50 := by norm_num
  rw [hi]
  have hfl : ⌊(99 : ℚ) / 50⌋ = 1 := by rw [Int.floor_eq_iff] <;> norm_num
  have hcl : ⌈(99 : ℚ) / 50⌉ = 2 := by rw [Int.ceil_eq_iff] <;> norm_num
  rw [hfl, hcl]
  norm_num [show Int.toNat 2 = 2 from rfl, show Int.toNat 1 = 1 from rfl]

/-- Evaluation of the median on a sorted three-element list. -/
theorem median_latency_sorted_three (a b c : ℚ)
    (hs : List.insertionSort (· ≤ ·) [a, b, c] = [a, b, c]) :
    median_latency [a, b, c] = b := by
  rw [median_latency, if_neg (by simp), hs]
  norm_num

/-- C3: the latency statistics implement the spec's conventions — arithmetic
mean, middle value with the average of the two middle values on even
cardinality, and 99th percentile by linear interpolation between closest
ranks — and on the spec's example multisets they produce exactly the stated
numbers `1.598`, `1.5`, `1.2` and `0.75`, `0.75`, `0.995`. -/
theorem latency_stats_conventions :
    (∀ (x : ℚ) (xs : List ℚ),
        avg_latency (x :: xs) = specMean (x :: xs) ∧
        median_latency (x :: xs) = specMedian (x :: xs) ∧
        p99_latency (x :: xs) = specP99 (x :: xs)) ∧
    p99_latency [1 / 2, 3 / 2, 8 / 5] = 1.598 ∧
    median_latency [1 / 2, 3 / 2, 8 / 5] = 1.5 ∧
    avg_latency [1 / 2, 3 / 2, 8 / 5] = 1.2 ∧
    avg_latency [1 / 2, 3 / 4, 1] = 0.75 ∧
    median_latency [1 / 2, 3 / 4, 1] = 0.75 ∧
    p99_latency [1 / 2, 3 / 4, 1] = 0.995 := by
  have hs1 : List.insertionSort (· ≤ ·) [(1 : ℚ) / 2, 3 / 2, 8 / 5] = [1 / 2, 3 / 2, 8 / 5] := by
    norm_num [List.insertionSort, List.orderedInsert]
  have hs2 : List.insertionSort (· ≤ ·) [(1 : ℚ) / 2, 3 / 4, 1] = [1 / 2, 3 / 4, 1] := by
    norm_num [List.insertionSort, List.orderedInsert]
  refine ⟨fun x xs => ⟨?_, ?_, ?_⟩, ?_, ?_, ?_, ?_, ?_, ?_⟩
  · simp [avg_latency, specMean]
  · simp only [median_latency, specMedian, if_neg (List.cons_ne_nil x xs)]
    split_ifs with h
    · congr 1
      omega
    · rfl
  · simp only [p99_latency, specP99, if_neg (List.cons_ne_nil x xs)]
    set s := List.insertionSort (· ≤ ·) (x :: xs) with hs
    set c : ℚ := ((s.length - 1 : ℕ) : ℚ) with hc
    rw [show (99 / 100 : ℚ) * c = c * 99 / 100 from by ring]
    ring
  · rw [p99_latency_sorted_three _ _ _ hs1]
    norm_num
  · rw [median_latency_sorted_three _ _ _ hs1]
    norm_num
  · rw [avg_latency, if_neg (by simp)]
    norm_num
  · rw [avg_latency, if_neg (by simp)]
    norm_num
  · rw [median_latency_sorted_three _ _ _ hs2]
    norm_num
  · rw [p99_latency_sorted_three _ _ _ hs2]
    norm_num

/-- C4: `format_stats` counts an event as successful iff
`200 ≤ status_code < 300` and as failed otherwise, and the two counts always
sum to the number of events handed to the bucket. -/
theorem classification_counts (entries : List LogEntry) :
    (∀ e : LogEntry, is2xx e = true ↔ (200 ≤ e.status_code ∧ e.status_code < 300)) ∧
    (format_stats entries).successful_requests = entries.countP is2xx ∧
    (format_stats entries).failed_requests = entries.countP (fun e => !is2xx e) ∧
    (format_stats entries).successful_requests + (format_stats entries).failed_requests
      = entries.length := by
  have h := countLoop_eq entries 0 0
  refine ⟨fun e => by simp [is2xx], ?_, ?_, ?_⟩
  · simp [format_stats, h]
  · simp [format_stats, h]
  · simp [format_stats, h]
    exact countP_add_countP_not is2xx entries

/-- C5: a bucket none of whose events has a status code in `[500, 600)` gets
uptime exactly 100.0. -/
theorem uptime_no_5xx (entries : List LogEntry)
    (h : ∀ e ∈ entries, ¬(500 ≤ e.status_code ∧ e.status_code < 600)) :
    calculate_uptime_percentage entries = 100 := by
  match entries with
  | [] => rfl
  | e :: rest =>
    simp only [calculate_uptime_percentage, uptimeLoop_no_error (e :: rest) 0 h]
    norm_num

/-- Witness for C5 at a concrete one-event bucket. -/
theorem uptime_no_5xx_witness : calculate_uptime_percentage [entryOk] = 100 :=
  uptime_no_5xx [entryOk] (by intro e he; simp [entryOk] at he; simp [he])

/-- The downtime loop of the source is simulated by the spec's state machine:
the optional `down_start` corresponds to the boolean `down` flag paired with
the recorded start timestamp. -/
theorem uptimeLoop_spec_foldl (es : List LogEntry) :
    ∀ (dt : ℚ) (o : Option DateTime) (dsd : DateTime),
    uptimeLoop dt o es
      = ((es.foldl specStep (o.isSome, o.getD dsd, dt)).2.2,
         if (es.foldl specStep (o.isSome, o.getD dsd, dt)).1 = true
           then some (es.foldl specStep (o.isSome, o.getD dsd, dt)).2.1 else none) := by
  induction es with
  | nil =>
    intro dt o dsd
    cases o <;> simp [uptimeLoop]
  | cons e es ih =>
    intro dt o dsd
    by_cases h : 500 ≤ e.status_code ∧ e.status_code < 600
    · cases o with
      | none =>
        have hstep : specStep (false, dsd, dt) e = (true, e.timestamp, dt) := by
          simp [specStep, h]
        simp only [uptimeLoop, if_pos h, List.foldl_cons, Option.isSome_none,
          Option.getD_none, hstep]
        simpa using ih dt (some e.timestamp) dsd
      | some d =>
        have hstep : specStep (true, d, dt) e = (true, d, dt) := by
          simp [specStep, h]
        simp only [uptimeLoop, if_pos h, List.foldl_cons, Option.isSome_some,
          Option.getD_some, hstep]
        simpa using ih dt (some d) dsd
    · cases o with
      | none =>
        have hstep : specStep (false, dsd, dt) e = (false, dsd, dt) := by
          simp [specStep, h]
        simp only [uptimeLoop, if_neg h, List.foldl_cons, Option.isSome_none,
          Option.getD_none, hstep]
        simpa using ih dt none dsd
      | some d =>
        have hstep : specStep (true, d, dt) e = (false, d, dt + tsub e.timestamp d) := by
          simp [specStep, h]
        simp only [uptimeLoop, if_neg h, List.foldl_cons, Option.isSome_some,
          Option.getD_some, hstep]
        simpa using ih (dt + tsub e.timestamp d) none d

/-- C1: on every non-empty bucket `calculate_uptime_percentage` implements the
spec's downtime state machine (enter down on the first 5xx, leave on the next
non-5xx adding the interval, close a dangling interval against the last event,
clamp `((86400 - downtime) / 86400) * 100` to `[0, 100]`), and on Scenario B's
events (200 at T, 500 at T+1s, 503 at T+2s, 200 at T+3s, timestamp order) it
returns exactly `((86400 - 2) / 86400) * 100`. -/
theorem uptime_machine :
    (∀ (e : LogEntry) (es : List LogEntry),
        calculate_uptime_percentage (e :: es) = specUptime (e :: es)) ∧
    calculate_uptime_percentage scenarioB = (86400 - 2) / 86400 * 100 := by
  constructor
  · intro e es
    simp only [calculate_uptime_percentage, specUptime]
    rw [uptimeLoop_spec_foldl (e :: es) 0 none dtEpoch]
    simp only [Option.isSome_none, Option.getD_none]
    set F := List.foldl specStep (false, dtEpoch, 0) (e :: es) with hF
    cases hb : F.1 <;> simp [hb]
  · have ht : toSeconds ⟨2024, 10, 26, 0, 0, 3⟩ - toSeconds ⟨2024, 10, 26, 0, 0, 1⟩ = 2 := by
      decide
    simp only [scenarioB, calculate_uptime_percentage, uptimeLoop, tsub]
    norm_num [ht]

/-- C2 fails on the code: the pipeline's `collect_window` hands `format_stats`
the bucket's events in arrival order and no sort is ever applied, so for the
out-of-order arrival `[entryLate, entryDown]` (a 200 stamped 00:10:00 arriving
before a 500 stamped 00:00:00) the emitted uptime is 100, while the claimed
sorted-order computation gives `((86400 - 600) / 86400) * 100`. -/
theorem unsorted_bucket_uptime_diverges :
    (format_stats [entryLate, entryDown]).uptime_percentage = 100 ∧
    calculate_uptime_percentage (sortByTimestamp [entryLate, entryDown])
      = (86400 - 600) / 86400 * 100 ∧
    ((86400 - 600 : ℚ) / 86400 * 100 ≠ 100) := by
  have hrel : ¬(toSeconds entryLate.timestamp ≤ toSeconds entryDown.timestamp) := by decide
  have hsort : sortByTimestamp [entryLate, entryDown] = [entryDown, entryLate] := by
    simp [sortByTimestamp, List.insertionSort, List.orderedInsert, hrel]
  refine ⟨?_, ?_, by norm_num⟩
  · simp only [format_stats, calculate_uptime_percentage, uptimeLoop, entryLate, entryDown, tsub]
    norm_num
  · rw [hsort]
    simp only [calculate_uptime_percentage, uptimeLoop, entryLate, entryDown, tsub]
    norm_num [show toSeconds ⟨2024, 10, 26, 0, 10, 0⟩ - toSeconds ⟨2024, 10, 26, 0, 0, 0⟩ = 600
      from by decide]

/-- The API's final `if`: the 404 branch is taken exactly on an empty result
list. -/
theorem notFound_iff_nil (l : List CustomerDailyStats) :
    (if l = [] then ApiResult.notFound else ApiResult.ok l) = ApiResult.notFound ↔ l = [] := by
  split_ifs with h <;> simp [h]

/-- C6 fails on the code as claimed; the amended statement: the endpoint
responds 404 exactly when no stored row matches both the customer id and, when
supplied, the `from` lower bound — so with a `from` filter a customer that does
have rows can still receive 404. -/
theorem get_customer_stats_404_iff (db : List CustomerDailyStats) (cid : List Char) :
    (get_customer_stats db cid none = ApiResult.notFound ↔ ∀ r ∈ db, r.customer_id ≠ cid) ∧
    ∀ f : ℤ, (get_customer_stats db cid (some f) = ApiResult.notFound ↔
        ∀ r ∈ db, r.customer_id = cid → r.date < f) := by
  constructor
  · rw [get_customer_stats, notFound_iff_nil, List.filter_eq_nil_iff]
    simp
  · intro f
    rw [get_customer_stats, notFound_iff_nil, List.filter_eq_nil_iff]
    constructor
    · intro h r hr hcid
      have := h r (by rw [List.mem_filter]; exact ⟨hr, by simp [hcid]⟩)
      simpa using this
    · intro h r hr
      rw [List.mem_filter] at hr
      have hcid : r.customer_id = cid := by simpa using hr.2
      simpa using h r hr.1 hcid

/-- Counterexample to C6 as stated: customer `c` has a stored row (date
ordinal 0), yet the endpoint answers 404 for `from = 1`. -/
theorem get_customer_stats_404_despite_records :
    (∃ r ∈ [rowC], r.customer_id = ['c']) ∧
    get_customer_stats [rowC] ['c'] (some 1) = ApiResult.notFound := by
  constructor
  · exact ⟨rowC, by simp, rfl⟩
  · rw [get_customer_stats]
    norm_num [rowC]

/-- Repeating the upsert with an identical payload leaves storage unchanged. -/
theorem save_idem (db : List CustomerDailyStats) (d : CustomerDailyStats) :
    save_to_database (save_to_database db d) d = save_to_database db d := by
  induction db with
  | nil => simp [save_to_database]
  | cons r rs ih =>
    by_cases h : r.customer_id = d.customer_id ∧ r.date = d.date
    · simp [save_to_database, h]
    · simp [save_to_database, h, ih]

/-- When no row carries the payload's key the upsert appends a fresh row. -/
theorem save_insert (db : List CustomerDailyStats) (d : CustomerDailyStats)
    (h : ∀ r ∈ db, ¬(r.customer_id = d.customer_id ∧ r.date = d.date)) :
    save_to_database db d = db ++ [d] := by
  induction db with
  | nil => rfl
  | cons r rs ih =>
    have hr := h r (by simp)
    simp only [save_to_database, if_neg hr, List.cons_append]
    rw [ih (fun x hx => h x (by simp [hx]))]

/-- C7: the sink upsert inserts a new row when the `(customer_id, date)` key is
absent, otherwise overwrites exactly the measure fields of the first matching
row while keeping its key fields, and calling it twice with an identical
payload is the same as calling it once. -/
theorem upsert_semantics (db : List CustomerDailyStats) (d : CustomerDailyStats) :
    save_to_database (save_to_database db d) d = save_to_database db d ∧
    ((∀ r ∈ db, ¬(r.customer_id = d.customer_id ∧ r.date = d.date)) →
      save_to_database db d = db ++ [d]) ∧
    (∀ (r : CustomerDailyStats) (rs : List CustomerDailyStats),
        r.customer_id = d.customer_id → r.date = d.date →
        save_to_database (r :: rs) d
          = { d with customer_id := r.customer_id, date := r.date } :: rs) := by
  refine ⟨save_idem db d, save_insert db d, ?_⟩
  intro r rs h1 h2
  simp [save_to_database, h1, h2]

/-- Witness for C7 at the empty store and a concrete payload. -/
theorem upsert_semantics_witness :
    save_to_database (save_to_database [] payloadD) payloadD
        = save_to_database [] payloadD ∧
    save_to_database [] payloadD = [] ++ [payloadD] ∧
    save_to_database [payloadD] payloadD
        = { payloadD with customer_id := payloadD.customer_id, date := payloadD.date } :: [] :=
  ⟨(upsert_semantics [] payloadD).1, (upsert_semantics [] payloadD).2.1 (by simp),
    (upsert_semantics [] payloadD).2.2 payloadD [] rfl rfl⟩

/-- Splitting consumes one whitespace-free token up to a following space. -/
theorem pySplitAux_token (t : List Char) : ∀ (r acc : List Char),
    (∀ ch ∈ t, ch.isWhitespace = false) → (acc ≠ [] ∨ t ≠ []) →
    pySplitAux (t ++ ' ' :: r) acc = (acc.reverse ++ t) :: pySplitAux r [] := by
  induction t with
  | nil =>
    intro r acc hws hne
    have hacc : acc ≠ [] := hne.resolve_right (by simp)
    simp [pySplitAux, hacc, show (' ' : Char).isWhitespace = true from rfl]
  | cons ch t' ih =>
    intro r acc hws hne
    have hch : ch.isWhitespace = false := hws ch (by simp)
    simp only [List.cons_append, pySplitAux, hch, Bool.false_eq_true, if_false, List.append_eq]
    rw [ih r (ch :: acc) (fun x hx => hws x (by simp [hx])) (Or.inl (by simp))]
    simp

/-- Splitting a final whitespace-free token yields exactly that token. -/
theorem pySplitAux_last (t : List Char) : ∀ (acc : List Char),
    (∀ ch ∈ t, ch.isWhitespace = false) → (acc ≠ [] ∨ t ≠ []) →
    pySplitAux t acc = [acc.reverse ++ t] := by
  induction t with
  | nil =>
    intro acc hws hne
    have hacc : acc ≠ [] := hne.resolve_right (by simp)
    simp [pySplitAux, hacc]
  | cons ch t' ih =>
    intro acc hws hne
    have hch : ch.isWhitespace = false := hws ch (by simp)
    simp only [pySplitAux, hch, Bool.false_eq_true, if_false, List.append_eq]
    rw [ih (ch :: acc) (fun x hx => hws x (by simp [hx])) (Or.inl (by simp))]
    simp

/-- `split()` peels off a leading token followed by a space. -/
theorem pySplit_token (t r : List Char) (hne : t ≠ [])
    (hws : ∀ ch ∈ t, ch.isWhitespace = false) :
    pySplit (t ++ ' ' :: r) = t :: pySplit r := by
  rw [pySplit, pySplitAux_token t r [] hws (Or.inr hne)]
  simp [pySplit]

/-- `split()` of a single whitespace-free token. -/
theorem pySplit_single (t : List Char) (hne : t ≠ [])
    (hws : ∀ ch ∈ t, ch.isWhitespace = false) :
    pySplit t = [t] := by
  rw [pySplit, pySplitAux_last t [] hws (Or.inr hne)]
  simp

/-- `split()` of six space-joined whitespace-free tokens recovers the tokens. -/
theorem pySplit_six (t0 t1 c p s du : List Char)
    (h0 : t0 ≠ []) (h0w : ∀ ch ∈ t0, ch.isWhitespace = false)
    (h1 : t1 ≠ []) (h1w : ∀ ch ∈ t1, ch.isWhitespace = false)
    (h2 : c ≠ []) (h2w : ∀ ch ∈ c, ch.isWhitespace = false)
    (h3 : p ≠ []) (h3w : ∀ ch ∈ p, ch.isWhitespace = false)
    (h4 : s ≠ []) (h4w : ∀ ch ∈ s, ch.isWhitespace = false)
    (h5 : du ≠ []) (h5w : ∀ ch ∈ du, ch.isWhitespace = false) :
    pySplit (t0 ++ ' ' :: (t1 ++ ' ' :: (c ++ ' ' :: (p ++ ' ' :: (s ++ ' ' :: du)))))
      = [t0, t1, c, p, s, du] := by
  rw [pySplit_token t0 _ h0 h0w, pySplit_token t1 _ h1 h1w, pySplit_token c _ h2 h2w,
    pySplit_token p _ h3 h3w, pySplit_token s _ h4 h4w, pySplit_single du h5 h5w]

/-- C9: parsing a well-formed line is lossless — for any six non-empty
whitespace-free fields joined by single spaces whose timestamp, status and
duration fields decode, `parse_log_line` returns exactly the decoded timestamp,
the customer id, the path, the status integer and the duration value. -/
theorem parse_lossless (t0 t1 c p s du : List Char) (dt : DateTime) (n : ℤ) (q : ℚ)
    (h0 : t0 ≠ []) (h0w : ∀ ch ∈ t0, ch.isWhitespace = false)
    (h1 : t1 ≠ []) (h1w : ∀ ch ∈ t1, ch.isWhitespace = false)
    (h2 : c ≠ []) (h2w : ∀ ch ∈ c, ch.isWhitespace = false)
    (h3 : p ≠ []) (h3w : ∀ ch ∈ p, ch.isWhitespace = false)
    (h4 : s ≠ []) (h4w : ∀ ch ∈ s, ch.isWhitespace = false)
    (h5 : du ≠ []) (h5w : ∀ ch ∈ du, ch.isWhitespace = false)
    (hts : strptimeYmdHms (t0 ++ ' ' :: t1) = some dt)
    (hint : pyInt s = some n)
    (hfl : pyFloat du = some q) :
    parse_log_line (t0 ++ ' ' :: (t1 ++ ' ' :: (c ++ ' ' :: (p ++ ' ' :: (s ++ ' ' :: du)))))
      = some ⟨dt, c, p, n, q⟩ := by
  rw [parse_log_line]
  rw [pySplit_six t0 t1 c p s du h0 h0w h1 h1w h2 h2w h3 h3w h4 h4w h5 h5w]
  simp [hts, hint, hfl]

/-- Witness for C9 on the repository's sample log line. -/
theorem parse_lossless_witness :
    parse_log_line ("2024-10-26".toList ++ ' ' :: ("03:05:00".toList ++ ' ' ::
        ("cust_1".toList ++ ' ' :: ("/api/v1/resource2".toList ++ ' ' ::
        ("200".toList ++ ' ' :: "0.5".toList)))))
      = some ⟨⟨2024, 10, 26, 3, 5, 0⟩, "cust_1".toList, "/api/v1/resource2".toList, 200, 1 / 2⟩ :=
  parse_lossless _ _ _ _ _ _ _ _ _
    (by decide) (by decide) (by decide) (by decide) (by decide) (by decide)
    (by decide) (by decide) (by decide) (by decide) (by decide) (by decide)
    (by decide) (by decide)
    (by rw [pyFloat, show pyFloatRaw "0.5".toList = some (5, 1, 0) from by decide]; norm_num)

/-- Counterexample to C8 as stated: a line with seven fields — a field count
different from 6 — still parses successfully from its first six fields instead
of yielding a ParseError. -/
theorem seven_field_line_parses :
    (pySplit extraFieldLine).length = 7 ∧
    parse_log_line extraFieldLine
      = some ⟨⟨2024, 10, 26, 3, 5, 0⟩, "cust_1".toList, "/api/v1/resource2".toList, 200, 1 / 2⟩ := by
  have hsplit : pySplit extraFieldLine
      = ["2024-10-26".toList, "03:05:00".toList, "cust_1".toList, "/api/v1/resource2".toList,
         "200".toList, "0.5".toList, "extra".toList] := by decide
  have hts : strptimeYmdHms ("2024-10-26".toList ++ ' ' :: "03:05:00".toList)
      = some ⟨2024, 10, 26, 3, 5, 0⟩ := by decide
  have hint : pyInt "200".toList = some 200 := by decide
  have hfl : pyFloat "0.5".toList = some (1 / 2 : ℚ) := by
    rw [pyFloat, show pyFloatRaw "0.5".toList = some (5, 1, 0) from by decide]
    norm_num
  constructor
  · rw [hsplit]
    rfl
  · rw [parse_log_line, hsplit]
    simp at hts hint hfl
    simp [hts, hint, hfl]

/-- C8 amended: `parse_log_line` returns `None` exactly when the line has fewer
than six whitespace-separated fields, or the timestamp assembled from the first
two fields does not parse, or the fifth field is not an integer literal, or the
sixth is not a float literal; fields beyond the sixth never cause a failure. -/
theorem parse_log_line_none_iff (line : List Char) :
    parse_log_line line = none ↔
      ((pySplit line).length < 6 ∨
       strptimeYmdHms ((pySplit line).getD 0 [] ++ ' ' :: (pySplit line).getD 1 []) = none ∨
       pyInt ((pySplit line).getD 4 []) = none ∨
       pyFloat ((pySplit line).getD 5 []) = none) := by
  rcases hp : pySplit line with _ | ⟨a, _ | ⟨b, _ | ⟨c, _ | ⟨d, _ | ⟨e, _ | ⟨f, rest⟩⟩⟩⟩⟩⟩
  · simp [parse_log_line, hp]
  · simp [parse_log_line, hp]
  · cases hts : strptimeYmdHms (a ++ ' ' :: b) <;> simp [parse_log_line, hp, hts]
  · cases hts : strptimeYmdHms (a ++ ' ' :: b) <;> simp [parse_log_line, hp, hts]
  · cases hts : strptimeYmdHms (a ++ ' ' :: b) <;> simp [parse_log_line, hp, hts]
  · cases hts : strptimeYmdHms (a ++ ' ' :: b) <;>
      cases hint : pyInt e <;> simp [parse_log_line, hp, hts, hint]
  · cases hts : strptimeYmdHms (a ++ ' ' :: b) <;>
      cases hint : pyInt e <;> cases hfl : pyFloat f <;>
        simp [parse_log_line, hp, hts, hint, hfl] <;> omega
